import Mathlib

/-!
Verification development for the stock sentiment analysis service
(app/api/stocks/route.ts).  The TypeScript route is shallowly embedded:
JS numbers are modelled as exact rationals, the in-memory rate-limit map
as an association list, external I/O (market data provider, news search,
LLM) as explicit oracle inputs, and thrown/caught exceptions as sum
types.  Each theorem restates one sentence of the specification and is
settled against the embedded definitions.
-/

namespace StocksRoute

/-! ## JSON values

Post-parse JavaScript values returned by JSON.parse.  Objects model
parsed JS objects, whose keys are unique after parsing. -/

inductive Json where
  | null
  | bool (b : Bool)
  | num (q : ℚ)
  | str (s : String)
  | arr (xs : List Json)
  | obj (fields : List (String × Json))

/-- Property access `j.k` in JS: a field of an object, `undefined`
(here `none`) otherwise. -/
def Json.getField (j : Json) (k : String) : Option Json :=
  match j with
  | Json.obj fields => (fields.find? (fun f => f.1 = k)).map (fun f => f.2)
  | _ => none

/-- JS truthiness of a defined value. -/
def Json.truthy (j : Json) : Bool :=
  match j with
  | Json.null => false
  | Json.bool b => b
  | Json.num q => q ≠ 0
  | Json.str s => s ≠ ""
  | Json.arr _ => true
  | Json.obj _ => true

/-- The JS typeof-object test (true for objects, arrays and null). -/
def Json.typeofObject (j : Json) : Bool :=
  match j with
  | Json.null => true
  | Json.arr _ => true
  | Json.obj _ => true
  | _ => false

def Json.asString (j : Json) : Option String :=
  match j with
  | Json.str s => some s
  | _ => none

def Json.asNum (j : Json) : Option ℚ :=
  match j with
  | Json.num q => some q
  | _ => none

/-! ## Rate limiter

Embedding of the in-memory rate limiting of app/api/stocks/route.ts:
`rateLimits : Map<string, RateLimit>`, `getRateLimit`, and
`incrementRateLimit`.  JS `Date` is modelled by its calendar
components; `getDate()` returns the day of the month. -/

structure JSDate where
  year : Nat
  month : Nat
  day : Nat
deriving DecidableEq, Repr

/-- JS `Date.prototype.getDate()`: the day of the month. -/
def JSDate.getDate (d : JSDate) : Nat := d.day

structure RateLimit where
  count : Nat
  lastReset : JSDate
deriving DecidableEq, Repr

/-- The `rateLimits` map, as an association list with unique keys. -/
abbrev RateStore := List (String × RateLimit)

def storeGet : RateStore → String → Option RateLimit
  | [], _ => none
  | (k, v) :: rest, ip => if k = ip then some v else storeGet rest ip

def storeSet : RateStore → String → RateLimit → RateStore
  | [], ip, r => [(ip, r)]
  | (k, v) :: rest, ip, r =>
      if k = ip then (ip, r) :: rest else (k, v) :: storeSet rest ip r

def MAX_REQUESTS_PER_DAY : Nat := 5

structure RLCheck where
  remaining : Int
  allowed : Bool
deriving DecidableEq, Repr

/-- Embedding of `getRateLimit(ip)`.  The wall clock `now` and the
mutable store are explicit; the returned store reflects the in-place
mutations (day reset, first-sight initialization). -/
def getRateLimit (ip : String) (now : JSDate) (st : RateStore) : RLCheck × RateStore :=
  match storeGet st ip with
  | none =>
      (⟨(MAX_REQUESTS_PER_DAY : Int), true⟩, storeSet st ip ⟨0, now⟩)
  | some limit =>
      let limit2 := if limit.lastReset.getDate ≠ now.getDate then ⟨0, now⟩ else limit
      let remaining : Int := (MAX_REQUESTS_PER_DAY : Int) - limit2.count
      (⟨remaining, decide (remaining > 0)⟩, storeSet st ip limit2)

/-- Embedding of `incrementRateLimit(ip)`. -/
def incrementRateLimit (ip : String) (st : RateStore) : RateStore :=
  match storeGet st ip with
  | none => st
  | some l => storeSet st ip ⟨l.count + 1, l.lastReset⟩

/-- JS string split on commas, over the character list; on the
empty list (empty string) it yields one empty field, as in JS. -/
def splitCommaChars : List Char → List (List Char)
  | [] => [[]]
  | c :: cs =>
      let rest := splitCommaChars cs
      if c = ',' then [] :: rest
      else
        match rest with
        | [] => [[c]]
        | g :: gs => (c :: g) :: gs

/-- JS split of a string on commas. -/
def splitComma (s : String) : List String :=
  (splitCommaChars s.data).map (fun cs => String.mk cs)

/-- Client key derivation shared by POST and GET:
the first comma-separated field of the x-forwarded-for header when the
header is truthy, the literal string "unknown" otherwise.  A missing
or empty header is falsy. -/
def clientKey (forwardedFor : Option String) : String :=
  match forwardedFor with
  | none => "unknown"
  | some s => if s = "" then "unknown" else (splitComma s).headD s

theorem storeGet_storeSet_self (st : RateStore) (ip : String) (r : RateLimit) :
    storeGet (storeSet st ip r) ip = some r := by
  induction st with
  | nil => simp [storeSet, storeGet]
  | cons hd tl ih =>
      obtain ⟨k, v⟩ := hd
      by_cases hk : k = ip
      · simp [storeSet, storeGet, hk]
      · simp [storeSet, storeGet, hk, ih]

/-! ## Market data fetcher

Embedding of `getStockData(ticker, range)`.  The provider responses
(quote, quoteSummary, the v8 chart endpoint) are oracle inputs; every
optional provider field is an `Option`. -/

structure Quote where
  regularMarketPrice : Option ℚ
  regularMarketChange : Option ℚ
  regularMarketChangePercent : Option ℚ
deriving DecidableEq, Repr

structure SummaryDetail where
  marketCap : Option ℚ
  trailingPE : Option ℚ
  forwardPE : Option ℚ
  dividendYield : Option ℚ
  volume : Option ℚ
  averageVolume : Option ℚ
  fiftyTwoWeekHigh : Option ℚ
  fiftyTwoWeekLow : Option ℚ
  beta : Option ℚ
deriving DecidableEq, Repr

structure KeyStats where
  priceToBook : Option ℚ
deriving DecidableEq, Repr

structure FinancialData where
  earningsGrowth : Option ℚ
  revenueGrowth : Option ℚ
  profitMargins : Option ℚ
deriving DecidableEq, Repr

structure QuoteSummary where
  summaryDetail : Option SummaryDetail
  defaultKeyStatistics : Option KeyStats
  financialData : Option FinancialData
deriving DecidableEq, Repr

def emptySummaryDetail : SummaryDetail :=
  ⟨none, none, none, none, none, none, none, none, none⟩

def emptyKeyStats : KeyStats := ⟨none⟩

def emptyFinancialData : FinancialData := ⟨none, none, none⟩

/-- The first element of `chart.result` of the v8 chart response:
parallel arrays of timestamps (seconds) and closing prices, where a
price entry can be null. -/
structure ChartResult where
  timestamp : List Nat
  close : List (Option ℚ)
deriving DecidableEq, Repr

/-- One element of `chartData` in the result: the timestamp (kept in
seconds here rather than as its ISO rendering) and the
price-or-null. -/
structure ChartPoint where
  timestamp : Nat
  price : Option ℚ
deriving DecidableEq, Repr

structure StockDetails where
  marketCap : Option ℚ
  peRatioVal : Option ℚ
  forwardPE : Option ℚ
  dividendYield : Option ℚ
  volume : Option ℚ
  avgVolume : Option ℚ
  high52Week : Option ℚ
  low52Week : Option ℚ
  beta : Option ℚ
  priceToBook : Option ℚ
  earningsGrowth : Option ℚ
  revenueGrowth : Option ℚ
  profitMargin : Option ℚ
deriving DecidableEq, Repr

structure StockDataResult where
  price : ℚ
  change : ℚ
  changePercent : ℚ
  chartData : List ChartPoint
  details : StockDetails
deriving DecidableEq, Repr

/-- JS `x || 0` applied to a possibly-undefined number: undefined goes
to 0, and 0 itself is falsy so it also yields 0. -/
def jsNumOrZero (x : Option ℚ) : ℚ :=
  match x with
  | none => 0
  | some v => v

/-- JS `prices[index] || null`: null, undefined and the falsy number 0
all collapse to null. -/
def jsNumOrNull (x : Option ℚ) : Option ℚ :=
  match x with
  | none => none
  | some v => if v = 0 then none else some v

/-- The `summaryDetail` object used by getStockData:
`(quoteSummaryResult as any)?.summaryDetail || {}`. -/
def effSummaryDetail (summary : Option QuoteSummary) : SummaryDetail :=
  (summary.bind (fun s => s.summaryDetail)).getD emptySummaryDetail

def effKeyStats (summary : Option QuoteSummary) : KeyStats :=
  (summary.bind (fun s => s.defaultKeyStatistics)).getD emptyKeyStats

def effFinancialData (summary : Option QuoteSummary) : FinancialData :=
  (summary.bind (fun s => s.financialData)).getD emptyFinancialData

/-- The `validChartData` computation: map the timestamp array to
chart points pairing `prices[index] || null`, then filter out null
prices. -/
def validChartData (timestamps : List Nat) (prices : List (Option ℚ)) : List ChartPoint :=
  (timestamps.enum.map
      (fun p => ChartPoint.mk p.2 (jsNumOrNull ((prices.get? p.1).join)))).filter
    (fun d => d.price ≠ none)

/-- Embedding of `getStockData`.  `fetchThrew` models the quote /
quoteSummary provider calls throwing (caught, yielding null overall);
`quote` is the quote object or undefined; `chart` is
`chartResponse?.data?.chart?.result?.[0]`, where `none` covers both the
axios `.catch(() => null)` and a missing result (both fall back to the
empty chart object). -/
def getStockData (fetchThrew : Bool) (quote : Option Quote)
    (summary : Option QuoteSummary) (chart : Option ChartResult) :
    Option StockDataResult :=
  if fetchThrew then none
  else
    match quote with
    | none => none
    | some q =>
        let chartRes := chart.getD ⟨[], []⟩
        let sd := effSummaryDetail summary
        let ks := effKeyStats summary
        let fd := effFinancialData summary
        some
          { price := jsNumOrZero q.regularMarketPrice
            change := jsNumOrZero q.regularMarketChange
            changePercent := jsNumOrZero q.regularMarketChangePercent
            chartData := validChartData chartRes.timestamp chartRes.close
            details :=
              { marketCap := sd.marketCap
                peRatioVal := sd.trailingPE
                forwardPE := sd.forwardPE
                dividendYield := sd.dividendYield
                volume := sd.volume
                avgVolume := sd.averageVolume
                high52Week := sd.fiftyTwoWeekHigh
                low52Week := sd.fiftyTwoWeekLow
                beta := sd.beta
                priceToBook := ks.priceToBook
                earningsGrowth := fd.earningsGrowth
                revenueGrowth := fd.revenueGrowth
                profitMargin := fd.profitMargins } }

/-! ## Per-ticker processing (processStock) -/

structure SearchNewsItem where
  title : String
  link : Option String
deriving DecidableEq, Repr

/-- The result of `yahooFinance.search(ticker, ...)`: its `news` field
may be missing (`result.news || []`). -/
structure SearchResult where
  news : Option (List SearchNewsItem)
deriving DecidableEq, Repr

/-- Oracle for the per-ticker external calls.  For the search,
`none` models a rejected promise (caught, yielding an empty news
list). -/
structure FetchEnv where
  fetchThrew : String → Bool
  quote : String → Option Quote
  summary : String → Option QuoteSummary
  chart : String → Option ChartResult
  searchNews : String → Option SearchResult

structure NewsItem where
  stock : String
  headline : String
  url : Option String
deriving DecidableEq, Repr

structure StockResult where
  ticker : String
  stockData : Option StockDataResult
  news : List NewsItem
deriving DecidableEq, Repr

def quoteUrl (ticker : String) : String :=
  "https://finance.yahoo.com/quote/" ++ ticker

/-- JS `item.link || defaultUrl`: a missing or empty link falls back to
the quote page. -/
def newsItemUrl (ticker : String) (link : Option String) : String :=
  match link with
  | none => quoteUrl ticker
  | some l => if l = "" then quoteUrl ticker else l

/-- Embedding of `processStock(ticker)`.  Both inner operations handle
their own failures (getStockData returns null, the search promise has a
.catch), so the outer catch branch of the source, which would
synthesize a placeholder headline, is unreachable and does not appear
here. -/
def processStock (env : FetchEnv) (ticker : String) : StockResult :=
  let stockData :=
    getStockData (env.fetchThrew ticker) (env.quote ticker)
      (env.summary ticker) (env.chart ticker)
  let newsList :=
    match env.searchNews ticker with
    | none => []
    | some r => r.news.getD []
  { ticker := ticker
    stockData := stockData
    news := newsList.map
      (fun item =>
        { stock := ticker
          headline := item.title
          url := some (newsItemUrl ticker item.link) }) }

/-! ## Sentiment validation (the filter over parsed LLM items) -/

structure SentimentItem where
  stock : String
  headline : String
  sentimentScore : ℚ
deriving DecidableEq, Repr

/-- The JS typeof-string test for a possibly-undefined value. -/
def jsTypeofString (o : Option Json) : Bool :=
  match o with
  | some (Json.str _) => true
  | _ => false

/-- The JS typeof-number test conjoined with the range bounds, for a
possibly-undefined value v: v is a number, v is at least -1 and v is
at most 1. -/
def jsNumberInRange (o : Option Json) : Bool :=
  match o with
  | some (Json.num q) => decide (-1 ≤ q) && decide (q ≤ 1)
  | _ => false

/-- Embedding of the validation filter predicate of the GET handler:
truthiness of the item, the typeof-object test, string `stock` and
`headline` fields, and a numeric `sentimentScore` within [-1, 1]. -/
def isValidSentimentItem (item : Json) : Bool :=
  item.truthy && item.typeofObject &&
    jsTypeofString (item.getField "stock") &&
    jsTypeofString (item.getField "headline") &&
    jsNumberInRange (item.getField "sentimentScore")

/-- The validity condition exactly as the specification words it: the
ticker (`stock`) and `headline` fields are strings and
`sentimentScore` is a number in [-1.0, 1.0] inclusive, with no further
conditions.  Stated independently of the code predicate to compare the
two. -/
def specValidSentimentItem (item : Json) : Bool :=
  jsTypeofString (item.getField "stock") &&
  jsTypeofString (item.getField "headline") &&
  jsNumberInRange (item.getField "sentimentScore")

/-- Reading the fields of an item that passed validation. -/
def asSentimentItem (item : Json) : SentimentItem :=
  { stock := ((item.getField "stock").bind Json.asString).getD ""
    headline := ((item.getField "headline").bind Json.asString).getD ""
    sentimentScore := ((item.getField "sentimentScore").bind Json.asNum).getD 0 }

/-! ## Combining sentiments per ticker (the reduce over validated items) -/

structure Article where
  headline : String
  sentimentScore : ℚ
  url : Option String
deriving DecidableEq, Repr

structure CombinedSentiment where
  stock : String
  headline : String
  sentimentScore : ℚ
  articles : List Article
  count : Nat
  totalSentiment : Option ℚ
  stockData : Option StockDataResult
deriving DecidableEq, Repr

/-- JS `array.reduce((sum, a) => sum + a.sentimentScore, 0)`. -/
def jsSum (l : List ℚ) : ℚ := l.foldl (fun s x => s + x) 0

/-- `stockNews.find(n => n.headline === curr.headline)?.url`. -/
def findNewsUrl (stockNews : List NewsItem) (headline : String) : Option String :=
  (stockNews.find? (fun n => n.headline = headline)).bind (fun n => n.url)

/-- `stockResults.find(r => r.ticker === curr.stock)?.stockData || null`. -/
def lookupStockData (stockResults : List StockResult) (stock : String) :
    Option StockDataResult :=
  (stockResults.find? (fun r => r.ticker = stock)).bind (fun r => r.stockData)

def mkArticle (stockNews : List NewsItem) (curr : SentimentItem) : Article :=
  { headline := curr.headline
    sentimentScore := curr.sentimentScore
    url := findNewsUrl stockNews curr.headline }

/-- The in-place mutation of the accumulator entry found for
`curr.stock`: push the article, recompute count, total and mean, and
fill in stockData only if it was still null. -/
def pushArticle (stockNews : List NewsItem) (stockResults : List StockResult)
    (curr : SentimentItem) (existing : CombinedSentiment) : CombinedSentiment :=
  let articles := existing.articles ++ [mkArticle stockNews curr]
  let total := jsSum (articles.map (fun a => a.sentimentScore))
  { existing with
    articles := articles
    count := articles.length
    totalSentiment := some total
    sentimentScore := total / (articles.length : ℚ)
    stockData :=
      match existing.stockData with
      | some sd => some sd
      | none => lookupStockData stockResults curr.stock }

/-- The entry pushed when `curr.stock` has no accumulator entry yet. -/
def newCombined (stockNews : List NewsItem) (stockResults : List StockResult)
    (curr : SentimentItem) : CombinedSentiment :=
  { stock := curr.stock
    headline := curr.headline
    sentimentScore := curr.sentimentScore
    articles := [mkArticle stockNews curr]
    count := 1
    totalSentiment := none
    stockData := lookupStockData stockResults curr.stock }

/-- Mutating the first list element satisfying `p` (the effect of
`acc.find(...)` followed by in-place mutation). -/
def mapFirst (p : α → Bool) (f : α → α) : List α → List α
  | [] => []
  | x :: xs => if p x then f x :: xs else x :: mapFirst p f xs

/-- One step of the `sentimentData.reduce` accumulation. -/
def combineStep (stockNews : List NewsItem) (stockResults : List StockResult)
    (acc : List CombinedSentiment) (curr : SentimentItem) : List CombinedSentiment :=
  if acc.any (fun item => item.stock = curr.stock) then
    mapFirst (fun item => item.stock = curr.stock)
      (pushArticle stockNews stockResults curr) acc
  else
    acc ++ [newCombined stockNews stockResults curr]

/-- Embedding of the whole `reduce` building `combinedSentiments`. -/
def combineSentiments (stockNews : List NewsItem) (stockResults : List StockResult)
    (items : List SentimentItem) : List CombinedSentiment :=
  items.foldl (combineStep stockNews stockResults) []

/-! ## Sorting and ranking -/

/-- Stable insertion for descending sort by sentimentScore; matches the
stable JS `sort((a, b) => b.sentimentScore - a.sentimentScore)`. -/
def insertDesc (x : CombinedSentiment) : List CombinedSentiment → List CombinedSentiment
  | [] => [x]
  | y :: ys =>
      if y.sentimentScore ≤ x.sentimentScore then x :: y :: ys
      else y :: insertDesc x ys

/-- Stable descending sort by sentimentScore. -/
def sortBySentimentDesc : List CombinedSentiment → List CombinedSentiment
  | [] => []
  | x :: xs => insertDesc x (sortBySentimentDesc xs)

/-- JS `array.slice(0, e)` where `e` may be negative: a negative end
counts from the end of the array (clamped at 0). -/
def jsSliceFromZero (l : List α) (e : Int) : List α :=
  l.take (if e < 0 then ((l.length : Int) + e).toNat else e.toNat)

/-- Embedding of the final ranking of the GET handler: keep every
entry whose stock is among the custom tickers, then fill with the
first non-custom entries via `slice(0, 10 - customTickerResults.length)`. -/
def rankResults (combined : List CombinedSentiment) (customTickers : List String) :
    List CombinedSentiment :=
  let customTickerResults :=
    combined.filter (fun item => customTickers.contains item.stock)
  let otherResults :=
    jsSliceFromZero (combined.filter (fun item => !customTickers.contains item.stock))
      ((10 : Int) - customTickerResults.length)
  customTickerResults ++ otherResults

/-! ## The GET and POST handlers -/

def DEFAULT_TICKERS : List String := ["AAPL", "MSFT", "GOOGL", "AMZN", "META"]

def VALID_TIME_RANGES : List String := ["1d", "5d", "1mo", "1y"]

/-- JS `[...new Set(l)]`: deduplication keeping first occurrences in
order. -/
def dedupFirst (l : List String) : List String :=
  l.foldl (fun acc t => if acc.contains t then acc else acc ++ [t]) []

/-- The tickers query parameter split on commas, or the empty list
when the parameter is missing. -/
def parseTickersParam (tp : Option String) : List String :=
  match tp with
  | none => []
  | some s => splitComma s

/-- The range query parameter with default 1d: missing or empty is
falsy. -/
def parseRangeParam (rp : Option String) : String :=
  match rp with
  | none => "1d"
  | some s => if s = "" then "1d" else s

def allTickersOf (customTickers : List String) : List String :=
  dedupFirst (DEFAULT_TICKERS ++ customTickers)

def stockResultsOf (env : FetchEnv) (customTickers : List String) : List StockResult :=
  (allTickersOf customTickers).map (processStock env)

/-- `stockResults.flatMap(result => result.news)`. -/
def stockNewsOf (env : FetchEnv) (customTickers : List String) : List NewsItem :=
  (stockResultsOf env customTickers).flatMap (fun r => r.news)

/-- The LLM chat-completion response content: absent (falsy), text that
JSON.parse rejects (with the raised parse-error message), or a parsed
JSON value. -/
inductive LLMContent where
  | noContent
  | unparseable (errMsg : String)
  | parsed (j : Json)

/-- The check `!parsedContent.headlines || !Array.isArray(parsedContent.headlines)`:
the headlines array, if the field holds one. -/
def headlinesArray (j : Json) : Option (List Json) :=
  match j.getField "headlines" with
  | some (Json.arr xs) => some xs
  | _ => none

inductive GETOutcome where
  | rateLimited (remaining : Int)
  | misconfigured
  | invalidRange
  | failure (status : Nat) (message : String) (remaining : Int)
  | success (data : List CombinedSentiment) (remaining : Int)
deriving DecidableEq, Repr

/-- The body of the GET handler after admission, key check, range
validation and the rate-limit increment. -/
def stocksGETBody (customTickers : List String) (env : FetchEnv) (llm : LLMContent)
    (remaining : Int) : GETOutcome :=
  let stockResults := stockResultsOf env customTickers
  let stockNews := stockNewsOf env customTickers
  if stockNews.isEmpty then
    GETOutcome.failure 500 "No headlines found" (remaining - 1)
  else
    match llm with
    | LLMContent.noContent =>
        GETOutcome.failure 500 "No content received from OpenAI" (remaining - 1)
    | LLMContent.unparseable errMsg =>
        GETOutcome.failure 500 ("Failed to parse sentiment data: " ++ errMsg)
          (remaining - 1)
    | LLMContent.parsed j =>
        match headlinesArray j with
        | none =>
            GETOutcome.failure 500
              "Failed to parse sentiment data: Response missing headlines array"
              (remaining - 1)
        | some xs =>
            let validJson := xs.filter isValidSentimentItem
            if validJson.isEmpty then
              GETOutcome.failure 500 "No valid sentiment data after filtering"
                (remaining - 1)
            else
              let items := validJson.map asSentimentItem
              let combined := combineSentiments stockNews stockResults items
              let finalResults :=
                rankResults (sortBySentimentDesc combined) customTickers
              GETOutcome.success finalResults (remaining - 1)

/-- Embedding of the GET handler of app/api/stocks/route.ts.  External
inputs: whether OPENAI_API_KEY is set, the x-forwarded-for header, the
two query parameters, the per-ticker fetch oracle, the LLM response,
the wall clock, and the rate-limit store. -/
def stocksGET (apiKeySet : Bool) (header : Option String) (tp rp : Option String)
    (env : FetchEnv) (llm : LLMContent) (now : JSDate) (st : RateStore) :
    GETOutcome × RateStore :=
  let ip := clientKey header
  let rl := getRateLimit ip now st
  if rl.fst.allowed = false then
    (GETOutcome.rateLimited rl.fst.remaining, rl.snd)
  else if apiKeySet = false then
    (GETOutcome.misconfigured, rl.snd)
  else if VALID_TIME_RANGES.contains (parseRangeParam rp) = false then
    (GETOutcome.invalidRange, rl.snd)
  else
    (stocksGETBody (parseTickersParam tp) env llm rl.fst.remaining,
      incrementRateLimit ip rl.snd)

inductive POSTOutcome where
  | rateLimited (remaining : Int)
  | failure (message : String) (remaining : Int)
  | success (tickers : List String) (articles : List NewsItem)
      (stockData : List (Option StockDataResult)) (remaining : Int)
deriving DecidableEq, Repr

/-- Embedding of the POST handler of app/api/stocks/route.ts: rate
limit admission, body parsing (`Except.error` models `req.json()` or
the tickers spread throwing), then the increment and the raw
data collection without LLM scoring. -/
def stocksPOST (header : Option String) (body : Except String (List String))
    (env : FetchEnv) (now : JSDate) (st : RateStore) : POSTOutcome × RateStore :=
  let ip := clientKey header
  let rl := getRateLimit ip now st
  if rl.fst.allowed = false then
    (POSTOutcome.rateLimited rl.fst.remaining, rl.snd)
  else
    match body with
    | Except.error msg => (POSTOutcome.failure msg (rl.fst.remaining - 1), rl.snd)
    | Except.ok tickers =>
        let allTickers := dedupFirst (DEFAULT_TICKERS ++ tickers)
        let stockResults := allTickers.map (processStock env)
        (POSTOutcome.success allTickers (stockResults.flatMap (fun r => r.news))
            (stockResults.map (fun r => r.stockData)) (rl.fst.remaining - 1),
          incrementRateLimit ip rl.snd)

/-! ## Helper views on outcomes -/

def GETOutcome.isSuccess : GETOutcome → Bool
  | GETOutcome.success _ _ => true
  | _ => false

/-- The ticker set of a successful GET response body. -/
def GETOutcome.dataStocks : GETOutcome → List String
  | GETOutcome.success data _ => data.map (fun e => e.stock)
  | _ => []

/-- One admitted request: the admission check followed by the
increment, exactly as the GET handler sequences them. -/
def admitIncr (ip : String) (d : JSDate) (st : RateStore) : RateStore :=
  incrementRateLimit ip (getRateLimit ip d st).snd

/-- `k` sequential admitted-and-incremented requests. -/
def admitIncrIter (ip : String) (d : JSDate) (st : RateStore) : Nat → RateStore
  | 0 => st
  | k + 1 => admitIncr ip d (admitIncrIter ip d st k)

/-- A fetch oracle in which every external call fails or is empty. -/
def nullFetchEnv : FetchEnv :=
  { fetchThrew := fun _ => false
    quote := fun _ => none
    summary := fun _ => none
    chart := fun _ => none
    searchNews := fun _ => none }

/-- A fetch oracle in which only the AAPL news search yields one
headline and every other external call fails. -/
def oneNewsEnv : FetchEnv :=
  { nullFetchEnv with
    searchNews := fun t =>
      if t = "AAPL" then some ⟨some [⟨"AAPL hits record", none⟩]⟩ else none }

/-! ## Rate limiter lemmas -/

theorem storeGet_admitIncrIter (ip : String) (d : JSDate) (st0 : RateStore)
    (h0 : storeGet st0 ip = none) :
    ∀ k : Nat, storeGet (admitIncrIter ip d st0 (k + 1)) ip = some ⟨k + 1, d⟩ := by
  intro k
  induction k with
  | zero =>
      simp [admitIncrIter, admitIncr, getRateLimit, incrementRateLimit, h0,
        storeGet_storeSet_self]
  | succ j ih =>
      show storeGet (admitIncr ip d (admitIncrIter ip d st0 (j + 1))) ip = _
      simp [admitIncr, getRateLimit, incrementRateLimit, ih,
        storeGet_storeSet_self, JSDate.getDate]

/-- C3.  With quota N = 5: starting from a store with no record for
the client key, five sequential admitted-and-incremented requests on
day d1 are each admitted; the sixth admission check on d1 returns
remaining = 0 and allowed = false; and on a different calendar day d2
the first request is admitted, with remaining = 4 = N - 1 reported by
a fresh check after its increment. -/
theorem rateLimit_quota_cycle (ip : String) (st0 : RateStore) (d1 d2 : JSDate)
    (h0 : storeGet st0 ip = none) (hday : d1.getDate ≠ d2.getDate) :
    (getRateLimit ip d1 (admitIncrIter ip d1 st0 0)).fst.allowed = true ∧
    (getRateLimit ip d1 (admitIncrIter ip d1 st0 1)).fst.allowed = true ∧
    (getRateLimit ip d1 (admitIncrIter ip d1 st0 2)).fst.allowed = true ∧
    (getRateLimit ip d1 (admitIncrIter ip d1 st0 3)).fst.allowed = true ∧
    (getRateLimit ip d1 (admitIncrIter ip d1 st0 4)).fst.allowed = true ∧
    (getRateLimit ip d1 (admitIncrIter ip d1 st0 5)).fst = ⟨0, false⟩ ∧
    (getRateLimit ip d2 (admitIncrIter ip d1 st0 5)).fst.allowed = true ∧
    (getRateLimit ip d2
        (incrementRateLimit ip
          (getRateLimit ip d2 (admitIncrIter ip d1 st0 5)).snd)).fst.remaining = 4 := by
  have h1 := storeGet_admitIncrIter ip d1 st0 h0 0
  have h2 := storeGet_admitIncrIter ip d1 st0 h0 1
  have h3 := storeGet_admitIncrIter ip d1 st0 h0 2
  have h4 := storeGet_admitIncrIter ip d1 st0 h0 3
  have h5 := storeGet_admitIncrIter ip d1 st0 h0 4
  simp only [JSDate.getDate] at hday
  refine ⟨?_, ?_, ?_, ?_, ?_, ?_, ?_, ?_⟩
  · simp [admitIncrIter, getRateLimit, h0]
  · simp [getRateLimit, h1, JSDate.getDate, MAX_REQUESTS_PER_DAY]
  · simp [getRateLimit, h2, JSDate.getDate, MAX_REQUESTS_PER_DAY]
  · simp [getRateLimit, h3, JSDate.getDate, MAX_REQUESTS_PER_DAY]
  · simp [getRateLimit, h4, JSDate.getDate, MAX_REQUESTS_PER_DAY]
  · simp [getRateLimit, h5, JSDate.getDate, MAX_REQUESTS_PER_DAY]
  · simp [getRateLimit, h5, JSDate.getDate, hday, MAX_REQUESTS_PER_DAY]
  · simp [getRateLimit, incrementRateLimit, h5, JSDate.getDate, hday,
      storeGet_storeSet_self, MAX_REQUESTS_PER_DAY]

/-- Witness for C3 at a concrete client, store and pair of consecutive
calendar days. -/
theorem rateLimit_quota_cycle_witness :
    (getRateLimit "1.2.3.4" ⟨2025, 3, 10⟩
        (admitIncrIter "1.2.3.4" ⟨2025, 3, 10⟩ [] 5)).fst = ⟨0, false⟩ ∧
    (getRateLimit "1.2.3.4" ⟨2025, 3, 11⟩
        (incrementRateLimit "1.2.3.4"
          (getRateLimit "1.2.3.4" ⟨2025, 3, 11⟩
            (admitIncrIter "1.2.3.4" ⟨2025, 3, 10⟩ [] 5)).snd)).fst.remaining = 4 := by
  have h := rateLimit_quota_cycle "1.2.3.4" [] ⟨2025, 3, 10⟩ ⟨2025, 3, 11⟩
    (by decide) (by decide)
  exact ⟨h.2.2.2.2.2.1, h.2.2.2.2.2.2.2⟩

/-- C4.  The reset comparison only looks at `getDate()` (the day of
the month), so a record last reset on 2025-01-15 is NOT reset when the
admission check runs on the different calendar date 2025-02-15: the
stored count stays 5 and the request is rejected, although the claim
(and the code comment saying to reset the count on a new day) require a reset
to 0 on any differing date. -/
theorem getRateLimit_monthBoundary_noReset :
    (⟨2025, 1, 15⟩ : JSDate) ≠ ⟨2025, 2, 15⟩ ∧
    (getRateLimit "203.0.113.7" ⟨2025, 2, 15⟩
        [("203.0.113.7", ⟨5, ⟨2025, 1, 15⟩⟩)]).fst = ⟨0, false⟩ ∧
    storeGet
        (getRateLimit "203.0.113.7" ⟨2025, 2, 15⟩
          [("203.0.113.7", ⟨5, ⟨2025, 1, 15⟩⟩)]).snd "203.0.113.7"
      = some ⟨5, ⟨2025, 1, 15⟩⟩ := by decide

/-- C10.  A request without an x-forwarded-for header is keyed by the
literal string "unknown"; consequently, after an admitted and
incremented request by one such client, the admission check of any other
header-less client (the same key, same day) observes one fewer
remaining request: they share a single daily quota record. -/
theorem missingHeader_sharedQuota (st : RateStore) (now : JSDate)
    (hA : (getRateLimit (clientKey none) now st).fst.allowed = true) :
    clientKey none = "unknown" ∧
    (getRateLimit (clientKey none) now
        (incrementRateLimit (clientKey none)
          (getRateLimit (clientKey none) now st).snd)).fst.remaining
      = (getRateLimit (clientKey none) now st).fst.remaining - 1 := by
  refine ⟨rfl, ?_⟩
  show (getRateLimit "unknown" now
      (incrementRateLimit "unknown" (getRateLimit "unknown" now st).snd)).fst.remaining
    = (getRateLimit "unknown" now st).fst.remaining - 1
  cases h : storeGet st "unknown" with
  | none =>
      simp [getRateLimit, incrementRateLimit, h, storeGet_storeSet_self, JSDate.getDate,
        MAX_REQUESTS_PER_DAY]
  | some r =>
      by_cases hd : r.lastReset.day = now.day
      · simp [getRateLimit, incrementRateLimit, h, hd, storeGet_storeSet_self,
          JSDate.getDate, MAX_REQUESTS_PER_DAY]
        ring
      · simp [getRateLimit, incrementRateLimit, h, hd, storeGet_storeSet_self,
          JSDate.getDate, MAX_REQUESTS_PER_DAY]

/-- Witness for C10: an empty store and a fresh header-less client. -/
theorem missingHeader_sharedQuota_witness :
    clientKey none = "unknown" ∧
    (getRateLimit (clientKey none) ⟨2025, 3, 10⟩
        (incrementRateLimit (clientKey none)
          (getRateLimit (clientKey none) ⟨2025, 3, 10⟩ []).snd)).fst.remaining
      = (getRateLimit (clientKey none) ⟨2025, 3, 10⟩ ([] : RateStore)).fst.remaining - 1 :=
  missingHeader_sharedQuota [] ⟨2025, 3, 10⟩ (by decide)

/-- C5 counterexample.  An admitted POST /stocks request increments
the stored count for its client key (here from 2 to 3), refuting the
claim that POST leaves the daily sentiment-analysis quota counter
unchanged. -/
theorem stocksPOST_consumes_quota :
    storeGet [("unknown", ⟨2, ⟨2025, 3, 10⟩⟩)] "unknown" = some ⟨2, ⟨2025, 3, 10⟩⟩ ∧
    storeGet
        (stocksPOST none (Except.ok ["AAPL"]) nullFetchEnv ⟨2025, 3, 10⟩
          [("unknown", ⟨2, ⟨2025, 3, 10⟩⟩)]).snd "unknown"
      = some ⟨3, ⟨2025, 3, 10⟩⟩ ∧
    storeGet
        (stocksPOST none (Except.ok ["AAPL"]) nullFetchEnv ⟨2025, 3, 10⟩
          [("unknown", ⟨2, ⟨2025, 3, 10⟩⟩)]).snd "unknown"
      ≠ storeGet [("unknown", ⟨2, ⟨2025, 3, 10⟩⟩)] "unknown" := by decide

/-- C5 amended.  POST /stocks does consume the quota: for a client
with a same-day record, an admitted POST with a parseable body leaves
the stored count at exactly one more than before, while a rejected
(rate-limited) POST leaves it unchanged. -/
theorem stocksPOST_increments_count (header : Option String)
    (tickers : List String) (env : FetchEnv) (now : JSDate) (st : RateStore)
    (c : Nat) (d : JSDate)
    (hrec : storeGet st (clientKey header) = some ⟨c, d⟩)
    (hday : d.getDate = now.getDate) :
    (c < 5 →
      storeGet (stocksPOST header (Except.ok tickers) env now st).snd (clientKey header)
        = some ⟨c + 1, d⟩) ∧
    (5 ≤ c →
      storeGet (stocksPOST header (Except.ok tickers) env now st).snd (clientKey header)
        = some ⟨c, d⟩) := by
  constructor
  · intro hc
    have hallow : ((MAX_REQUESTS_PER_DAY : Int) - (c : Int) > 0) := by
      simp [MAX_REQUESTS_PER_DAY]; omega
    simp [stocksPOST, getRateLimit, incrementRateLimit, hrec, hday,
      storeGet_storeSet_self, hallow]
  · intro hc
    have hallow : ¬ ((MAX_REQUESTS_PER_DAY : Int) - (c : Int) > 0) := by
      simp [MAX_REQUESTS_PER_DAY]; omega
    simp [stocksPOST, getRateLimit, incrementRateLimit, hrec, hday,
      storeGet_storeSet_self, hallow]

/-- Witness for the amended C5: a client at count 2 moves to count 3
on an admitted POST. -/
theorem stocksPOST_increments_count_witness :
    storeGet
        (stocksPOST none (Except.ok ["TSLA"]) nullFetchEnv ⟨2025, 3, 10⟩
          [("unknown", ⟨2, ⟨2025, 3, 10⟩⟩)]).snd (clientKey none)
      = some ⟨3, ⟨2025, 3, 10⟩⟩ :=
  (stocksPOST_increments_count none ["TSLA"] nullFetchEnv ⟨2025, 3, 10⟩
    [("unknown", ⟨2, ⟨2025, 3, 10⟩⟩)] 2 ⟨2025, 3, 10⟩ (by decide) (by decide)).1
    (by decide)

/-! ## Result ranker (C2) -/

/-- A bare combined-sentiment entry for concrete ranking scenarios. -/
def mkCS (s : String) (q : ℚ) : CombinedSentiment :=
  { stock := s
    headline := ""
    sentimentScore := q
    articles := []
    count := 0
    totalSentiment := none
    stockData := none }

def elevenTickers : List String :=
  ["T1", "T2", "T3", "T4", "T5", "T6", "T7", "T8", "T9", "T10", "T11"]

def rankerInputC2 : List CombinedSentiment :=
  elevenTickers.map (fun t => mkCS t 0) ++ [mkCS "X1" 0, mkCS "X2" 0]

/-- C2 counterexample.  With 11 explicit-ticker entries and 2 others,
`slice(0, 10 - 11)` has a negative end, which JS interprets from the
end of the array: one non-explicit entry survives, the result has 12
entries (more than cap = 10), and a non-explicit entry is returned
although the explicit entries alone exceed cap. -/
theorem rankResults_cap_counterexample :
    (rankerInputC2.filter (fun i => elevenTickers.contains i.stock)).length = 11 ∧
    (rankResults rankerInputC2 elevenTickers).length = 12 ∧
    mkCS "X1" 0 ∈ rankResults rankerInputC2 elevenTickers ∧
    elevenTickers.contains "X1" = false := by decide

/-- C2 amended.  The ranker always retains every explicit-ticker
entry; it returns at most cap = 10 entries whenever the explicit-ticker
entries number at most 10; and when they number exactly 10, only
explicit entries are returned.  (When they exceed 10 the result can
exceed the cap and include non-explicit entries, per the
counterexample.) -/
theorem rankResults_cap_and_retention (combined : List CombinedSentiment)
    (ct : List String) :
    (∀ e ∈ combined, ct.contains e.stock = true → e ∈ rankResults combined ct) ∧
    ((combined.filter (fun item => ct.contains item.stock)).length ≤ 10 →
      (rankResults combined ct).length ≤ 10) ∧
    ((combined.filter (fun item => ct.contains item.stock)).length = 10 →
      ∀ e ∈ rankResults combined ct, ct.contains e.stock = true) := by
  refine ⟨?_, ?_, ?_⟩
  · intro e he hc
    unfold rankResults
    exact List.mem_append_left _ (List.mem_filter.mpr ⟨he, hc⟩)
  · intro hlen
    unfold rankResults
    rw [List.length_append]
    have hcond :
        ¬ ((10 : Int) - ((combined.filter (fun item => ct.contains item.stock)).length : Int)
            < 0) := by omega
    unfold jsSliceFromZero
    rw [if_neg hcond]
    have hbound := List.length_take_le
      ((10 : Int) - ((combined.filter (fun item => ct.contains item.stock)).length : Int)).toNat
      (combined.filter (fun item => !ct.contains item.stock))
    omega
  · intro h10 e he
    simp only [rankResults] at he
    rcases List.mem_append.mp he with h | h
    · exact (List.mem_filter.mp h).2
    · exfalso
      have hz : (10 : Int)
          - ((combined.filter (fun item => ct.contains item.stock)).length : Int) = 0 := by
        rw [h10]; norm_num
      unfold jsSliceFromZero at h
      rw [hz] at h
      simp at h

/-- Witness for the amended C2 at a concrete two-entry input. -/
theorem rankResults_cap_and_retention_witness :
    mkCS "A" 1 ∈ rankResults [mkCS "A" 1, mkCS "B" 0] ["A"] :=
  (rankResults_cap_and_retention [mkCS "A" 1, mkCS "B" 0] ["A"]).1 (mkCS "A" 1)
    (by decide) (by decide)

/-! ## Sentiment validation (C7) -/

theorem isValid_eq_specValid (item : Json) :
    isValidSentimentItem item = specValidSentimentItem item := by
  cases item <;>
    simp [isValidSentimentItem, specValidSentimentItem, Json.truthy,
      Json.typeofObject, Json.getField, jsTypeofString, jsNumberInRange]

/-- The outer plumbing of the GET handler on an admitted request with
the API key configured and a valid range: it runs the body on the
admission remaining value and increments the client count. -/
theorem stocksGET_admitted (apiKeySet : Bool) (header tp rp : Option String)
    (env : FetchEnv) (llm : LLMContent) (now : JSDate) (st : RateStore)
    (hA : (getRateLimit (clientKey header) now st).fst.allowed = true)
    (hK : apiKeySet = true)
    (hR : parseRangeParam rp ∈ VALID_TIME_RANGES) :
    stocksGET apiKeySet header tp rp env llm now st =
      (stocksGETBody (parseTickersParam tp) env llm
          (getRateLimit (clientKey header) now st).fst.remaining,
        incrementRateLimit (clientKey header)
          (getRateLimit (clientKey header) now st).snd) := by
  subst hK
  simp [stocksGET, hA, hR]

/-- C7.  The validation filter keeps exactly the items whose `stock`
and `headline` fields are strings and whose `sentimentScore` is a
number in [-1, 1] inclusive (every other item is dropped), and when
the filtered list is empty the whole admitted GET request fails with
the filtering error instead of returning data. -/
theorem sentimentValidation_exact :
    (∀ item : Json, isValidSentimentItem item = specValidSentimentItem item) ∧
    (∀ xs : List Json,
      xs.filter isValidSentimentItem = xs.filter specValidSentimentItem) ∧
    (∀ (apiKeySet : Bool) (header tp rp : Option String) (env : FetchEnv)
        (now : JSDate) (st : RateStore) (j : Json) (xs : List Json),
      (getRateLimit (clientKey header) now st).fst.allowed = true →
      apiKeySet = true →
      parseRangeParam rp ∈ VALID_TIME_RANGES →
      (stockNewsOf env (parseTickersParam tp)).isEmpty = false →
      headlinesArray j = some xs →
      (xs.filter isValidSentimentItem).isEmpty = true →
      (stocksGET apiKeySet header tp rp env (LLMContent.parsed j) now st).fst =
        GETOutcome.failure 500 "No valid sentiment data after filtering"
          ((getRateLimit (clientKey header) now st).fst.remaining - 1)) := by
  refine ⟨isValid_eq_specValid, ?_, ?_⟩
  · intro xs
    induction xs with
    | nil => rfl
    | cons x rest ih => simp [List.filter_cons, isValid_eq_specValid x, ih]
  · intro apiKeySet header tp rp env now st j xs hA hK hR hN hxs hempty
    rw [stocksGET_admitted apiKeySet header tp rp env (LLMContent.parsed j) now st hA hK hR]
    simp [stocksGETBody, hN, hxs, hempty]

/-- Witness for C7: a mixed list where only the well-formed in-range
item is kept, plus an admitted request whose items are all invalid. -/
theorem sentimentValidation_exact_witness :
    ([Json.obj [("stock", Json.str "AAPL"), ("headline", Json.str "up"),
          ("sentimentScore", Json.num (1 / 2))],
        Json.obj [("stock", Json.str "MSFT"), ("headline", Json.str "down"),
          ("sentimentScore", Json.num 2)],
        Json.str "junk"].filter isValidSentimentItem
      = [Json.obj [("stock", Json.str "AAPL"), ("headline", Json.str "up"),
          ("sentimentScore", Json.num (1 / 2))],
        Json.obj [("stock", Json.str "MSFT"), ("headline", Json.str "down"),
          ("sentimentScore", Json.num 2)],
        Json.str "junk"].filter specValidSentimentItem) ∧
    (stocksGET true none (some "NFLX") (some "1d") oneNewsEnv
        (LLMContent.parsed (Json.obj [("headlines", Json.arr [Json.str "junk"])]))
        ⟨2025, 3, 10⟩ []).fst =
      GETOutcome.failure 500 "No valid sentiment data after filtering"
        ((getRateLimit (clientKey none) ⟨2025, 3, 10⟩ ([] : RateStore)).fst.remaining - 1) := by
  constructor
  · exact sentimentValidation_exact.2.1 _
  · exact sentimentValidation_exact.2.2 true none (some "NFLX") (some "1d") oneNewsEnv
      ⟨2025, 3, 10⟩ [] (Json.obj [("headlines", Json.arr [Json.str "junk"])])
      [Json.str "junk"] (by decide) rfl (by decide) (by rfl) (by rfl) (by rfl)

/-! ## Market data defaults and pass-through (C9) -/

theorem jsNumOrNull_some_ne_zero (x : Option ℚ) (v : ℚ)
    (h : jsNumOrNull x = some v) : v ≠ 0 := by
  cases x with
  | none => simp [jsNumOrNull] at h
  | some w =>
      by_cases hw : w = 0
      · simp [jsNumOrNull, hw] at h
      · simp [jsNumOrNull, hw] at h
        rw [← h]
        exact hw

theorem mem_validChartData_pos (ts : List Nat) (cs : List (Option ℚ)) (p : ChartPoint)
    (hp : p ∈ validChartData ts cs) : ∃ v, p.price = some v ∧ v ≠ 0 := by
  unfold validChartData at hp
  rw [List.mem_filter] at hp
  obtain ⟨hmem, hne⟩ := hp
  rw [List.mem_map] at hmem
  obtain ⟨pair, _, rfl⟩ := hmem
  simp only [decide_eq_true_eq] at hne
  cases hx : jsNumOrNull ((cs.get? pair.1).join) with
  | none => exact absurd hx hne
  | some v => exact ⟨v, by simp [hx], jsNumOrNull_some_ne_zero _ _ hx⟩

/-- C9.  On the successful path, a quote missing any of the three
market fields yields the number 0 for that field; every chart point
retained in chartData carries a non-null, nonzero price (a provider
price of exactly 0 is coerced to null and filtered out); and all
fundamentals under `details` are passed through from the provider
objects unchanged, so an omitted fundamental stays absent. -/
theorem getStockData_missing_fields (q : Quote) (summary : Option QuoteSummary)
    (chart : Option ChartResult) (r : StockDataResult)
    (h : getStockData false (some q) summary chart = some r) :
    (q.regularMarketPrice = none → r.price = 0) ∧
    (q.regularMarketChange = none → r.change = 0) ∧
    (q.regularMarketChangePercent = none → r.changePercent = 0) ∧
    (∀ p ∈ r.chartData, ∃ v, p.price = some v ∧ v ≠ 0) ∧
    r.details.marketCap = (effSummaryDetail summary).marketCap ∧
    r.details.peRatioVal = (effSummaryDetail summary).trailingPE ∧
    r.details.forwardPE = (effSummaryDetail summary).forwardPE ∧
    r.details.dividendYield = (effSummaryDetail summary).dividendYield ∧
    r.details.volume = (effSummaryDetail summary).volume ∧
    r.details.avgVolume = (effSummaryDetail summary).averageVolume ∧
    r.details.high52Week = (effSummaryDetail summary).fiftyTwoWeekHigh ∧
    r.details.low52Week = (effSummaryDetail summary).fiftyTwoWeekLow ∧
    r.details.beta = (effSummaryDetail summary).beta ∧
    r.details.priceToBook = (effKeyStats summary).priceToBook ∧
    r.details.earningsGrowth = (effFinancialData summary).earningsGrowth ∧
    r.details.revenueGrowth = (effFinancialData summary).revenueGrowth ∧
    r.details.profitMargin = (effFinancialData summary).profitMargins := by
  simp only [getStockData, Bool.false_eq_true, if_false, Option.some.injEq] at h
  subst h
  refine ⟨?_, ?_, ?_, ?_, rfl, rfl, rfl, rfl, rfl, rfl, rfl, rfl, rfl, rfl, rfl, rfl, rfl⟩
  · intro hnone; simp [jsNumOrZero, hnone]
  · intro hnone; simp [jsNumOrZero, hnone]
  · intro hnone; simp [jsNumOrZero, hnone]
  · exact fun p hp => mem_validChartData_pos _ _ p hp

def quoteC9 : Quote := ⟨none, none, none⟩

def chartC9 : ChartResult := ⟨[1000, 2000, 3000], [some 0, some 5, none]⟩

def resultC9 : StockDataResult :=
  { price := 0
    change := 0
    changePercent := 0
    chartData := [⟨2000, some 5⟩]
    details := ⟨none, none, none, none, none, none, none, none, none, none, none,
      none, none⟩ }

/-- Witness for C9: a quote with all three market fields omitted, a
chart with a zero price and a null price, and no fundamentals. -/
theorem getStockData_missing_fields_witness :
    resultC9.price = 0 ∧ resultC9.change = 0 ∧
    (∀ p ∈ resultC9.chartData, ∃ v, p.price = some v ∧ v ≠ 0) ∧
    resultC9.details.marketCap = (effSummaryDetail none).marketCap := by
  have h := getStockData_missing_fields quoteC9 none (some chartC9) resultC9 (by decide)
  exact ⟨h.1 rfl, h.2.1 rfl, h.2.2.2.1, h.2.2.2.2.1⟩

/-! ## Per-ticker aggregation invariant (C8) -/

/-- The sentiment scores of the articles collected in one combined
entry, in insertion order. -/
def articleScores (e : CombinedSentiment) : List ℚ :=
  e.articles.map (fun a => a.sentimentScore)

/-- The sentiment scores of all validated items for one ticker, in
input order. -/
def tickerScores (items : List SentimentItem) (t : String) : List ℚ :=
  (items.filter (fun it => it.stock = t)).map (fun it => it.sentimentScore)

/-- Invariant of the `reduce` accumulator after folding `processed`:
the accumulator holds one entry per distinct ticker seen so far, each
entry collects exactly the scores of its own ticker, and the
sentimentScore of each entry is the mean of its collected scores. -/
def CombineInv (processed : List SentimentItem) (acc : List CombinedSentiment) : Prop :=
  (∀ t : String,
    t ∈ acc.map (fun e => e.stock) ↔ t ∈ processed.map (fun it => it.stock)) ∧
  List.Pairwise (fun a b : CombinedSentiment => a.stock ≠ b.stock) acc ∧
  ∀ e ∈ acc,
    articleScores e = tickerScores processed e.stock ∧
    e.sentimentScore = jsSum (articleScores e) / ((articleScores e).length : ℚ)

theorem jsSum_eq_sum (l : List ℚ) : jsSum l = l.sum := by
  rw [List.sum_eq_foldl]
  rfl

theorem tickerScores_append_single (items : List SentimentItem) (curr : SentimentItem)
    (t : String) :
    tickerScores (items ++ [curr]) t =
      tickerScores items t ++ (if curr.stock = t then [curr.sentimentScore] else []) := by
  unfold tickerScores
  rw [List.filter_append, List.map_append]
  congr 1
  by_cases h : curr.stock = t <;> simp [h]

theorem tickerScores_nil_of_not_mem (items : List SentimentItem) (t : String)
    (h : ∀ it ∈ items, it.stock ≠ t) : tickerScores items t = [] := by
  unfold tickerScores
  have hf : items.filter (fun it => it.stock = t) = [] :=
    List.filter_eq_nil_iff.mpr (fun it hit => by simpa using h it hit)
  rw [hf]
  rfl

theorem pushArticle_stock (stockNews : List NewsItem) (stockResults : List StockResult)
    (curr : SentimentItem) (e : CombinedSentiment) :
    (pushArticle stockNews stockResults curr e).stock = e.stock := rfl

theorem pushArticle_articleScores (stockNews : List NewsItem)
    (stockResults : List StockResult) (curr : SentimentItem) (e : CombinedSentiment) :
    articleScores (pushArticle stockNews stockResults curr e)
      = articleScores e ++ [curr.sentimentScore] := by
  simp [pushArticle, articleScores, mkArticle]

theorem pushArticle_mean (stockNews : List NewsItem) (stockResults : List StockResult)
    (curr : SentimentItem) (e : CombinedSentiment) :
    (pushArticle stockNews stockResults curr e).sentimentScore
      = jsSum (articleScores (pushArticle stockNews stockResults curr e))
        / ((articleScores (pushArticle stockNews stockResults curr e)).length : ℚ) := by
  simp [pushArticle, articleScores, mkArticle, List.length_map]

theorem exists_mapFirst_decomp (stockNews : List NewsItem)
    (stockResults : List StockResult) (curr : SentimentItem) :
    ∀ acc : List CombinedSentiment,
      List.Pairwise (fun a b : CombinedSentiment => a.stock ≠ b.stock) acc →
      acc.any (fun item => item.stock = curr.stock) = true →
      ∃ pre e0 post,
        acc = pre ++ e0 :: post ∧
        e0.stock = curr.stock ∧
        (∀ x ∈ pre, x.stock ≠ curr.stock) ∧
        (∀ x ∈ post, x.stock ≠ curr.stock) ∧
        mapFirst (fun item => item.stock = curr.stock)
            (pushArticle stockNews stockResults curr) acc
          = pre ++ pushArticle stockNews stockResults curr e0 :: post := by
  intro acc
  induction acc with
  | nil => intro _ hany; simp at hany
  | cons x xs ih =>
      intro hpair hany
      by_cases hx : x.stock = curr.stock
      · refine ⟨[], x, xs, by simp, hx, by simp, ?_, ?_⟩
        · intro b hb
          have h1 := (List.pairwise_cons.mp hpair).1 b hb
          rw [hx] at h1
          exact Ne.symm h1
        · simp [mapFirst, hx]
      · have hany2 : xs.any (fun item => item.stock = curr.stock) = true := by
          rcases List.any_eq_true.mp hany with ⟨b, hb, hbs⟩
          rcases List.mem_cons.mp hb with rfl | hb2
          · exact absurd (by simpa using hbs) hx
          · exact List.any_eq_true.mpr ⟨b, hb2, hbs⟩
        obtain ⟨pre, e0, post, hacc, he0, hpre, hpost, hmap⟩ :=
          ih (List.pairwise_cons.mp hpair).2 hany2
        refine ⟨x :: pre, e0, post, by rw [List.cons_append, hacc], he0, ?_, hpost, ?_⟩
        · intro b hb
          rcases List.mem_cons.mp hb with rfl | hb2
          · exact hx
          · exact hpre b hb2
        · rw [List.cons_append]
          simp only [mapFirst]
          rw [if_neg (by simpa using hx), hmap]

theorem combineStep_inv (stockNews : List NewsItem) (stockResults : List StockResult)
    (processed : List SentimentItem) (acc : List CombinedSentiment)
    (curr : SentimentItem) (hInv : CombineInv processed acc) :
    CombineInv (processed ++ [curr]) (combineStep stockNews stockResults acc curr) := by
  obtain ⟨hiff, hpair, hel⟩ := hInv
  by_cases hAny : acc.any (fun item => item.stock = curr.stock) = true
  · obtain ⟨pre, e0, post, hacc, he0, hpre, hpost, hmap⟩ :=
      exists_mapFirst_decomp stockNews stockResults curr acc hpair hAny
    have hcs : combineStep stockNews stockResults acc curr
        = pre ++ pushArticle stockNews stockResults curr e0 :: post := by
      unfold combineStep
      rw [if_pos hAny]
      exact hmap
    rw [hcs]
    subst hacc
    refine ⟨?_, ?_, ?_⟩
    · intro t
      have hstocks :
          (pre ++ pushArticle stockNews stockResults curr e0 :: post).map
              (fun e => e.stock)
            = (pre ++ e0 :: post).map (fun e => e.stock) := by
        simp [pushArticle_stock]
      rw [hstocks, hiff t, List.map_append]
      constructor
      · exact fun h => List.mem_append_left _ h
      · intro h
        rcases List.mem_append.mp h with h | h
        · exact h
        · simp only [List.map_cons, List.map_nil, List.mem_singleton] at h
          subst h
          apply (hiff curr.stock).mp
          rw [← he0]
          exact List.mem_map.mpr ⟨e0, by simp, rfl⟩
    · rw [List.pairwise_append] at hpair ⊢
      obtain ⟨hp1, hp2, hp3⟩ := hpair
      refine ⟨hp1, ?_, ?_⟩
      · rw [List.pairwise_cons] at hp2 ⊢
        exact ⟨fun b hb => by rw [pushArticle_stock]; exact hp2.1 b hb, hp2.2⟩
      · intro a ha b hb
        have hcross := hp3 a ha
        rcases List.mem_cons.mp hb with rfl | hb2
        · rw [pushArticle_stock]
          exact hcross e0 (List.mem_cons_self _ _)
        · exact hcross b (List.mem_cons.mpr (Or.inr hb2))
    · intro e he
      rcases List.mem_append.mp he with hpre2 | hrest
      · obtain ⟨hsc, hmean⟩ := hel e (List.mem_append_left _ hpre2)
        refine ⟨?_, hmean⟩
        rw [tickerScores_append_single, if_neg (Ne.symm (hpre e hpre2)),
          List.append_nil]
        exact hsc
      · rcases List.mem_cons.mp hrest with rfl | hpost2
        · obtain ⟨hsc, _⟩ := hel e0 (List.mem_append_right _ (List.mem_cons_self _ _))
          constructor
          · rw [pushArticle_stock, pushArticle_articleScores,
              tickerScores_append_single, if_pos he0.symm, hsc]
          · exact pushArticle_mean stockNews stockResults curr e0
        · obtain ⟨hsc, hmean⟩ := hel e
            (List.mem_append_right _ (List.mem_cons.mpr (Or.inr hpost2)))
          refine ⟨?_, hmean⟩
          rw [tickerScores_append_single, if_neg (Ne.symm (hpost e hpost2)),
            List.append_nil]
          exact hsc
  · have hno : ∀ x ∈ acc, x.stock ≠ curr.stock := by
      intro x hx heq
      exact hAny (List.any_eq_true.mpr ⟨x, hx, by simpa using heq⟩)
    have hcs : combineStep stockNews stockResults acc curr
        = acc ++ [newCombined stockNews stockResults curr] := by
      unfold combineStep
      rw [if_neg hAny]
    rw [hcs]
    refine ⟨?_, ?_, ?_⟩
    · intro t
      rw [List.map_append, List.map_append]
      simp only [List.mem_append]
      constructor
      · rintro (h | h)
        · exact Or.inl ((hiff t).mp h)
        · right
          simpa [newCombined] using h
      · rintro (h | h)
        · exact Or.inl ((hiff t).mpr h)
        · right
          simpa [newCombined] using h
    · rw [List.pairwise_append]
      refine ⟨hpair, List.pairwise_singleton _ _, ?_⟩
      intro a ha b hb
      simp only [List.mem_singleton] at hb
      subst hb
      exact hno a ha
    · intro e he
      rcases List.mem_append.mp he with h | h
      · obtain ⟨hsc, hmean⟩ := hel e h
        refine ⟨?_, hmean⟩
        rw [tickerScores_append_single, if_neg (Ne.symm (hno e h)), List.append_nil]
        exact hsc
      · simp only [List.mem_singleton] at h
        subst h
        have hnil : tickerScores processed curr.stock = [] := by
          apply tickerScores_nil_of_not_mem
          intro it hit hstock
          have hmem : curr.stock ∈ acc.map (fun e => e.stock) :=
            (hiff curr.stock).mpr (List.mem_map.mpr ⟨it, hit, hstock⟩)
          obtain ⟨x, hx, hxs⟩ := List.mem_map.mp hmem
          exact hno x hx hxs
        constructor
        · show [curr.sentimentScore] = tickerScores (processed ++ [curr]) curr.stock
          rw [tickerScores_append_single, if_pos rfl, hnil, List.nil_append]
        · show curr.sentimentScore = jsSum [curr.sentimentScore] / ((1 : ℕ) : ℚ)
          simp [jsSum]

theorem combineSentiments_inv (stockNews : List NewsItem)
    (stockResults : List StockResult) (items : List SentimentItem) :
    CombineInv items (combineSentiments stockNews stockResults items) := by
  have hgen : ∀ (its processed : List SentimentItem) (acc : List CombinedSentiment),
      CombineInv processed acc →
      CombineInv (processed ++ its)
        (its.foldl (combineStep stockNews stockResults) acc) := by
    intro its
    induction its with
    | nil => intro processed acc h; simpa using h
    | cons x xs ih =>
        intro processed acc h
        have h1 := combineStep_inv stockNews stockResults processed acc x h
        have h2 := ih (processed ++ [x]) _ h1
        simpa [List.append_assoc] using h2
  have hbase : CombineInv [] [] := ⟨by simp, List.Pairwise.nil, by simp⟩
  simpa using hgen items [] [] hbase

/-- C8.  Every entry produced by the combining reduce collects exactly
the scores of the validated items sharing its ticker, its aggregate
sentimentScore is their unweighted arithmetic mean, and the entry
tickers are exactly the tickers occurring among the items (grouping by
ticker). -/
theorem combineSentiments_perTicker_mean :
    (∀ (stockNews : List NewsItem) (stockResults : List StockResult)
        (items : List SentimentItem) (e : CombinedSentiment),
      e ∈ combineSentiments stockNews stockResults items →
      articleScores e = tickerScores items e.stock ∧
      e.sentimentScore =
        (tickerScores items e.stock).sum / ((tickerScores items e.stock).length : ℚ)) ∧
    (∀ (stockNews : List NewsItem) (stockResults : List StockResult)
        (items : List SentimentItem) (t : String),
      t ∈ (combineSentiments stockNews stockResults items).map (fun e => e.stock) ↔
        t ∈ items.map (fun it => it.stock)) := by
  constructor
  · intro stockNews stockResults items e he
    obtain ⟨_, _, hel⟩ := combineSentiments_inv stockNews stockResults items
    obtain ⟨hsc, hmean⟩ := hel e he
    refine ⟨hsc, ?_⟩
    rw [hmean, hsc, jsSum_eq_sum]
  · intro stockNews stockResults items t
    exact (combineSentiments_inv stockNews stockResults items).1 t

def itemsC8 : List SentimentItem :=
  [⟨"AAPL", "h1", 1⟩, ⟨"MSFT", "h2", 0⟩, ⟨"AAPL", "h3", 0⟩]

def combinedAAPL : CombinedSentiment :=
  { stock := "AAPL"
    headline := "h1"
    sentimentScore := 1 / 2
    articles := [⟨"h1", 1, none⟩, ⟨"h3", 0, none⟩]
    count := 2
    totalSentiment := some 1
    stockData := none }

/-- Witness for C8: the AAPL entry aggregating scores 1 and 0 has
mean 1/2. -/
theorem combineSentiments_perTicker_mean_witness :
    combinedAAPL.sentimentScore
      = (tickerScores itemsC8 combinedAAPL.stock).sum
        / ((tickerScores itemsC8 combinedAAPL.stock).length : ℚ) := by
  refine (combineSentiments_perTicker_mean.1 [] [] itemsC8 combinedAAPL ?_).2
  have hc : combineSentiments [] [] itemsC8
      = [combinedAAPL, ⟨"MSFT", "h2", 0, [⟨"h2", 0, none⟩], 1, none, none⟩] := by
    simp [combineSentiments, itemsC8, combineStep, newCombined, pushArticle,
      mkArticle, findNewsUrl, lookupStockData, mapFirst, jsSum, combinedAAPL]
  rw [hc]
  exact List.mem_cons_self _ _

/-! ## Malformed LLM response (C6) -/

/-- The LLM content failed the parse step: JSON.parse threw, or the
parsed value has no headlines array. -/
def llmParseFailed (llm : LLMContent) : Bool :=
  match llm with
  | LLMContent.unparseable _ => true
  | LLMContent.parsed j => (headlinesArray j).isNone
  | LLMContent.noContent => false

/-- The message of the error rethrown by the parse step. -/
def parseFailureMessage (llm : LLMContent) : String :=
  match llm with
  | LLMContent.unparseable m => "Failed to parse sentiment data: " ++ m
  | LLMContent.parsed _ =>
      "Failed to parse sentiment data: Response missing headlines array"
  | LLMContent.noContent => ""

/-- C6.  On an admitted GET request (key configured, valid range, some
headline collected), unparseable LLM content or content without a
headlines array fails the whole request with status 500 and a message
referencing the parse failure, while the client count has been
incremented and the reported remaining is the admission value minus
one. -/
theorem stocksGET_parseFailure (apiKeySet : Bool) (header tp rp : Option String)
    (env : FetchEnv) (llm : LLMContent) (now : JSDate) (st : RateStore)
    (hA : (getRateLimit (clientKey header) now st).fst.allowed = true)
    (hK : apiKeySet = true)
    (hR : parseRangeParam rp ∈ VALID_TIME_RANGES)
    (hN : (stockNewsOf env (parseTickersParam tp)).isEmpty = false)
    (hP : llmParseFailed llm = true) :
    (stocksGET apiKeySet header tp rp env llm now st).fst =
      GETOutcome.failure 500 (parseFailureMessage llm)
        ((getRateLimit (clientKey header) now st).fst.remaining - 1) ∧
    (stocksGET apiKeySet header tp rp env llm now st).snd =
      incrementRateLimit (clientKey header)
        (getRateLimit (clientKey header) now st).snd ∧
    ∃ s, parseFailureMessage llm = "Failed to parse sentiment data: " ++ s := by
  rw [stocksGET_admitted apiKeySet header tp rp env llm now st hA hK hR]
  refine ⟨?_, rfl, ?_⟩
  · cases llm with
    | noContent => simp [llmParseFailed] at hP
    | unparseable m => simp [stocksGETBody, hN, parseFailureMessage]
    | parsed j =>
        have hcase : headlinesArray j = none := by
          simpa [llmParseFailed, Option.isNone_iff_eq_none] using hP
        simp [stocksGETBody, hN, hcase, parseFailureMessage]
  · cases llm with
    | noContent => simp [llmParseFailed] at hP
    | unparseable m => exact ⟨m, rfl⟩
    | parsed j => exact ⟨"Response missing headlines array", rfl⟩

/-- Witness for C6: a fresh client, one collected headline, and
content JSON.parse rejects. -/
theorem stocksGET_parseFailure_witness :
    (stocksGET true none (some "NFLX") (some "1d") oneNewsEnv
        (LLMContent.unparseable "Unexpected token u") ⟨2025, 3, 10⟩ []).fst =
      GETOutcome.failure 500
        ("Failed to parse sentiment data: " ++ "Unexpected token u")
        ((getRateLimit (clientKey none) ⟨2025, 3, 10⟩ ([] : RateStore)).fst.remaining - 1) :=
  (stocksGET_parseFailure true none (some "NFLX") (some "1d") oneNewsEnv
    (LLMContent.unparseable "Unexpected token u") ⟨2025, 3, 10⟩ []
    (by decide) rfl (by decide) (by rfl) rfl).1

/-! ## Explicit tickers in the final result (C1) -/

/-- A fetch oracle where the NFLX news search fails (rejected promise,
caught as an empty news list) and every other ticker yields one
headline; NFLX market data also fails. -/
def envC1 : FetchEnv :=
  { nullFetchEnv with
    searchNews := fun t =>
      if t = "NFLX" then none
      else some ⟨some [⟨t ++ " gains", none⟩]⟩ }

/-- An LLM response scoring only the AAPL headline. -/
def llmC1 : LLMContent :=
  LLMContent.parsed (Json.obj [("headlines", Json.arr
    [Json.obj [("stock", Json.str "AAPL"), ("headline", Json.str "AAPL gains"),
      ("sentimentScore", Json.num 0)]])])

/-- C1 counterexample.  A request for NFLX whose market-data fetch and
news collection both fail still returns 200 (other tickers supplied
headlines and scores), but NFLX is absent from the ticker set of the
response: the explicitly requested ticker is silently dropped. -/
theorem stocksGET_drops_failed_ticker :
    (stocksGET true none (some "NFLX") (some "1d") envC1 llmC1
        ⟨2025, 3, 10⟩ []).fst.isSuccess = true ∧
    "NFLX" ∈ parseTickersParam (some "NFLX") ∧
    ((stocksGET true none (some "NFLX") (some "1d") envC1 llmC1
        ⟨2025, 3, 10⟩ []).fst.dataStocks.contains "NFLX") = false := by decide

theorem mem_insertDesc (x y : CombinedSentiment) (l : List CombinedSentiment) :
    y ∈ insertDesc x l ↔ y = x ∨ y ∈ l := by
  induction l with
  | nil => simp [insertDesc]
  | cons z zs ih =>
      by_cases h : z.sentimentScore ≤ x.sentimentScore
      · simp [insertDesc, h]
      · simp [insertDesc, h, ih]
        tauto

theorem mem_sortBySentimentDesc (y : CombinedSentiment) (l : List CombinedSentiment) :
    y ∈ sortBySentimentDesc l ↔ y ∈ l := by
  induction l with
  | nil => simp [sortBySentimentDesc]
  | cons x xs ih => simp [sortBySentimentDesc, mem_insertDesc, ih]

theorem mem_rankResults_of_custom (combined : List CombinedSentiment)
    (ct : List String) (e : CombinedSentiment) (he : e ∈ combined)
    (hc : ct.contains e.stock = true) : e ∈ rankResults combined ct := by
  unfold rankResults
  exact List.mem_append_left _ (List.mem_filter.mpr ⟨he, hc⟩)

/-- C1 amended.  For a 200 response, every explicitly requested ticker
that received at least one validated sentiment entry from the LLM is
present in the ticker set of the response; a requested ticker with no
validated entries (for instance because its market data and news
collection both failed, so it contributed no headline) is dropped. -/
theorem stocksGET_success_keeps_scored_custom (apiKeySet : Bool)
    (header tp rp : Option String) (env : FetchEnv) (llm : LLMContent)
    (now : JSDate) (st : RateStore) (data : List CombinedSentiment)
    (rem : Int) (st2 : RateStore)
    (hEq : stocksGET apiKeySet header tp rp env llm now st
      = (GETOutcome.success data rem, st2))
    (t : String) (ht : t ∈ parseTickersParam tp) (j : Json) (xs : List Json)
    (hllm : llm = LLMContent.parsed j)
    (hxs : headlinesArray j = some xs)
    (hscored : t ∈ ((xs.filter isValidSentimentItem).map asSentimentItem).map
        (fun it => it.stock)) :
    t ∈ data.map (fun e => e.stock) := by
  subst hllm
  simp only [stocksGET] at hEq
  split at hEq
  · exact absurd (congrArg Prod.fst hEq) (by simp)
  · split at hEq
    · exact absurd (congrArg Prod.fst hEq) (by simp)
    · split at hEq
      · exact absurd (congrArg Prod.fst hEq) (by simp)
      · have hbody := congrArg Prod.fst hEq
        simp only at hbody
        simp only [stocksGETBody, hxs] at hbody
        split at hbody
        · exact absurd hbody (by simp)
        · split at hbody
          · exact absurd hbody (by simp)
          · rw [GETOutcome.success.injEq] at hbody
            obtain ⟨hdata, _⟩ := hbody
            subst hdata
            have hcomb :=
              ((combineSentiments_inv (stockNewsOf env (parseTickersParam tp))
                  (stockResultsOf env (parseTickersParam tp))
                  ((xs.filter isValidSentimentItem).map asSentimentItem)).1 t).mpr hscored
            obtain ⟨e, he, hes⟩ := List.mem_map.mp hcomb
            refine List.mem_map.mpr ⟨e, ?_, hes⟩
            apply mem_rankResults_of_custom
            · exact (mem_sortBySentimentDesc e _).mpr he
            · rw [hes]
              exact List.elem_iff.mpr ht

/-- An LLM response scoring one NFLX headline. -/
def llmC1w : LLMContent :=
  LLMContent.parsed (Json.obj [("headlines", Json.arr
    [Json.obj [("stock", Json.str "NFLX"), ("headline", Json.str "NFLX gains"),
      ("sentimentScore", Json.num 1)]])])

/-- Witness for the amended C1: the requested ticker NFLX did get a
validated scored entry and is present in the 200 response. -/
theorem stocksGET_success_keeps_scored_custom_witness :
    "NFLX" ∈ (stocksGET true none (some "NFLX") (some "1d") envC1 llmC1w
        ⟨2025, 3, 10⟩ []).fst.dataStocks := by
  have hsucc : (stocksGET true none (some "NFLX") (some "1d") envC1 llmC1w
      ⟨2025, 3, 10⟩ []).fst.isSuccess = true := by decide
  rcases hEq : stocksGET true none (some "NFLX") (some "1d") envC1 llmC1w
      ⟨2025, 3, 10⟩ [] with ⟨out, stx⟩
  rw [hEq] at hsucc
  cases out with
  | success data rem =>
      have hmem := stocksGET_success_keeps_scored_custom true none (some "NFLX")
        (some "1d") envC1 llmC1w ⟨2025, 3, 10⟩ [] data rem stx hEq "NFLX"
        (by decide)
        (Json.obj [("headlines", Json.arr
          [Json.obj [("stock", Json.str "NFLX"), ("headline", Json.str "NFLX gains"),
            ("sentimentScore", Json.num 1)]])])
        [Json.obj [("stock", Json.str "NFLX"), ("headline", Json.str "NFLX gains"),
          ("sentimentScore", Json.num 1)]]
        rfl (by rfl) (by decide)
      simpa [GETOutcome.dataStocks] using hmem
  | rateLimited r => simp [GETOutcome.isSuccess] at hsucc
  | misconfigured => simp [GETOutcome.isSuccess] at hsucc
  | invalidRange => simp [GETOutcome.isSuccess] at hsucc
  | failure a b c => simp [GETOutcome.isSuccess] at hsucc

end StocksRoute
